import Mathlib

/-! web-service-gin-sqlite: a shallow embedding of `main.go`

The program is one Go file: a process-wide slice `cars` (the in-memory mirror), a handle
`db` to an SQLite file, and seven gin handlers.  Each handler is embedded as a function from
the process state (mirror and database) and the request inputs to an `Outcome`.

Modelling decisions:

* Go `string` is `String`, Go `int` is `Int` (no arithmetic is done on a year, it is only
  compared), a slice is a `List`.
* `ctx.Param(..)` is the handler's string argument.  `ctx.BindJSON` belongs to the gin
  framework; it is the parameter `bind`, which maps the request body to the decoded car or
  to `none` when it reports an error.
* `db.Exec` belongs to the SQL driver; it is the parameter `exec`, which maps the database
  state and a statement to the new database state, or to `none` when it reports an error.
  `log.Fatal` ends the process: the outcome `fatal`.
* Every outcome carries the list of statements passed to `db.Exec` during the request.
-/

namespace CarService

/-! ## Data model (main.go 13-25) -/

/-- Data about a car (the Go struct `car`). -/
structure car where
  ID : String
  Year : Int
  Make : String
  Model : String
deriving DecidableEq, Repr

/-- The two statements that the handlers pass to `db.Exec`, with their bound arguments:
`insert into cars (id, year, make, model) values ($1, $2, $3, $4)` and
`delete from cars where id = $1`. -/
inductive Stmt where
  | insert (id : String) (year : Int) (make : String) (model : String)
  | delete (id : String)
deriving DecidableEq, Repr

/-- What a handler hands to `ctx.IndentedJSON`: one car, a slice of cars, or the map
`gin.H` with the single key "message". -/
inductive Payload where
  | one (c : car)
  | many (cs : List car)
  | H (message : String)
deriving DecidableEq, Repr

/-- A response written by a handler: HTTP status code and JSON payload. -/
structure Response where
  status : Nat
  payload : Payload
deriving DecidableEq, Repr

/-- The process state: the global slice `cars` and the state behind the handle `db`. -/
structure Proc (σ : Type) where
  cars : List car
  db : σ
deriving DecidableEq, Repr

/-- The result of running a handler.  `returned s issued resp`: the handler returned in state
`s` after passing the statements `issued` to `db.Exec`, having written `resp` (`none` when it
wrote nothing).  `fatal issued`: `log.Fatal` ended the process after the statements
`issued`. -/
inductive Outcome (σ : Type) where
  | returned (s : Proc σ) (issued : List Stmt) (resp : Option Response)
  | fatal (issued : List Stmt)
deriving DecidableEq, Repr

def StatusOK : Nat := 200
def StatusCreated : Nat := 201
def StatusBadRequest : Nat := 400
def StatusNotFound : Nat := 404

/-! ## strconv.Atoi (Go standard library, 64-bit `int`) -/

/-- Value of a decimal digit, `none` for any other character. -/
def digitVal (ch : Char) : Option Nat :=
  if 48 ≤ ch.toNat ∧ ch.toNat ≤ 57 then some (ch.toNat - 48) else none

/-- The digit loop of the parser: accumulate `n*10 + d`, fail on the first non-digit. -/
def parseDigits : List Char → Nat → Option Nat
  | [], n => some n
  | ch :: rest, n =>
    match digitVal ch with
    | none => none
    | some d => parseDigits rest (n * 10 + d)

/-- Library function `strconv.Atoi`: an optional sign, then at least one decimal digit and nothing else; the
value has to fit a 64-bit `int`.  `none` stands for a non-nil `err`. -/
def Atoi (s : String) : Option Int :=
  match s.data with
  | [] => none
  | ch :: rest =>
    let neg := ch = '-'
    let ds := if ch = '-' ∨ ch = '+' then rest else ch :: rest
    match ds with
    | [] => none
    | d :: ds' =>
      match parseDigits (d :: ds') 0 with
      | none => none
      | some n =>
        let v : Int := if neg then -(n : Int) else (n : Int)
        if -(2 : Int) ^ 63 ≤ v ∧ v ≤ (2 : Int) ^ 63 - 1 then some v else none

/-- A decimal numeral: an optional sign followed by one or more decimal digits and nothing
else (written from the words "integer input" of the specification, not from the parser). -/
def isNumeral (s : String) : Bool :=
  match s.data with
  | [] => false
  | ch :: rest =>
    let ds := if ch = '-' ∨ ch = '+' then rest else ch :: rest
    !ds.isEmpty && ds.all Char.isDigit

/-! ## Storage adapter (main.go 212-230) -/

/-- Function `dbAddCar`: executes the insert; `none` is `log.Fatal(err)`. -/
def dbAddCar {σ : Type} (exec : σ → Stmt → Option σ) (db : σ) (newCar : car) : Option σ :=
  exec db (Stmt.insert newCar.ID newCar.Year newCar.Make newCar.Model)

/-- Function `dbDeleteCar`: executes the delete; `none` is `log.Fatal(err)`. -/
def dbDeleteCar {σ : Type} (exec : σ → Stmt → Option σ) (db : σ) (id : String) : Option σ :=
  exec db (Stmt.delete id)

/-! ## Request handlers (main.go 45-155) -/

/-- Handler `getCars`: responds with the whole slice. -/
def getCars {σ : Type} (s : Proc σ) : Outcome σ :=
  Outcome.returned s [] (some ⟨StatusOK, Payload.many s.cars⟩)

/-- The loop `for _, c := range cars { if c.ID == id { ...; return } }` of `getCarById`:
the car at which the loop returns, `none` when the loop runs to its end. -/
def findLoop (id : String) : List car → Option car
  | [] => none
  | c :: rest => if c.ID = id then some c else findLoop id rest

/-- Handler `getCarById` (main.go 51-62). -/
def getCarById {σ : Type} (s : Proc σ) (id : String) : Outcome σ :=
  match findLoop id s.cars with
  | some c => Outcome.returned s [] (some ⟨StatusOK, Payload.one c⟩)
  | none => Outcome.returned s [] (some ⟨StatusNotFound, Payload.H "car not found."⟩)

/-- The loop `for _, c := range cars { if keep c { acc = append(acc, c) } }` shared in shape
by the three filter handlers, started with the nil slice. -/
def collectLoop (keep : car → Bool) (cars : List car) : List car :=
  cars.foldl (fun acc c => if keep c then acc ++ [c] else acc) []

/-- Handler `getCarsByYear` (main.go 65-86). -/
def getCarsByYear {σ : Type} (s : Proc σ) (yearParam : String) : Outcome σ :=
  match Atoi yearParam with
  | none => Outcome.returned s [] (some ⟨StatusBadRequest, Payload.H "invalid year."⟩)
  | some year =>
    let carsByYear := collectLoop (fun c => c.Year = year) s.cars
    if carsByYear.length > 0 then
      Outcome.returned s [] (some ⟨StatusOK, Payload.many carsByYear⟩)
    else
      Outcome.returned s [] (some ⟨StatusNotFound, Payload.H "year not found."⟩)

/-- Handler `getCarsByMake` (main.go 89-106). -/
def getCarsByMake {σ : Type} (s : Proc σ) (make : String) : Outcome σ :=
  let carsByMake := collectLoop (fun c => c.Make = make) s.cars
  if carsByMake.length > 0 then
    Outcome.returned s [] (some ⟨StatusOK, Payload.many carsByMake⟩)
  else
    Outcome.returned s [] (some ⟨StatusNotFound, Payload.H "make not found."⟩)

/-- Handler `getCarsByModel` (main.go 109-126). -/
def getCarsByModel {σ : Type} (s : Proc σ) (model : String) : Outcome σ :=
  let carsByModel := collectLoop (fun c => c.Model = model) s.cars
  if carsByModel.length > 0 then
    Outcome.returned s [] (some ⟨StatusOK, Payload.many carsByModel⟩)
  else
    Outcome.returned s [] (some ⟨StatusNotFound, Payload.H "model not found."⟩)

/-- Handler `postCar` (main.go 129-139): bind the body, append to the mirror, insert, respond. -/
def postCar {σ : Type} (exec : σ → Stmt → Option σ) (bind : String → Option car)
    (s : Proc σ) (body : String) : Outcome σ :=
  match bind body with
  | none => Outcome.returned s [] none
  | some newCar =>
    let cars := s.cars ++ [newCar]
    let issued := [Stmt.insert newCar.ID newCar.Year newCar.Make newCar.Model]
    match dbAddCar exec s.db newCar with
    | none => Outcome.fatal issued
    | some db => Outcome.returned ⟨cars, db⟩ issued (some ⟨StatusCreated, Payload.one newCar⟩)

/-- The loop `for i, c := range cars { if c.ID == id { ...; return } }` of `deleteCarById`:
index and car at which the loop returns, counting from `i`. -/
def indexLoop (id : String) : List car → Nat → Option (Nat × car)
  | [], _ => none
  | c :: rest, i => if c.ID = id then some (i, c) else indexLoop id rest (i + 1)

/-- Handler `deleteCarById` (main.go 142-155): at the first match, `cars = append(cars[:i],
cars[i+1:]...)`, delete the row, respond with the removed car. -/
def deleteCarById {σ : Type} (exec : σ → Stmt → Option σ) (s : Proc σ) (id : String) :
    Outcome σ :=
  match indexLoop id s.cars 0 with
  | some (i, c) =>
    let cars := s.cars.take i ++ s.cars.drop (i + 1)
    let issued := [Stmt.delete c.ID]
    match dbDeleteCar exec s.db c.ID with
    | none => Outcome.fatal issued
    | some db => Outcome.returned ⟨cars, db⟩ issued (some ⟨StatusOK, Payload.one c⟩)
  | none => Outcome.returned s [] (some ⟨StatusNotFound, Payload.H "car not found."⟩)

/-! ## Storage models -/

/-- The table `cars (id text primary key, year integer not null, make text not null,
model text not null)` created by `dbInit` (main.go 173-176), as the list of its rows.
An insert whose id is already a key is refused, a delete removes every row with the id;
`fault` marks the statements on which the driver fails for any other reason. -/
def tableExec (fault : Stmt → Bool) (rows : List car) (st : Stmt) : Option (List car) :=
  if fault st then none
  else
    match st with
    | Stmt.insert id year make model =>
      if id ∈ rows.map car.ID then none else some (rows ++ [⟨id, year, make, model⟩])
    | Stmt.delete id => some (rows.filter (fun r => r.ID ≠ id))

/-- A store that accepts every statement and only records it (for instance a table `cars`
that was created elsewhere without a key constraint). -/
def logExec (log : List Stmt) (st : Stmt) : Option (List Stmt) :=
  some (log ++ [st])

/-- Keyed by id: no two records of the list share an id. -/
def Keyed (rows : List car) : Prop := (rows.map car.ID).Nodup

/-! ## Sample data for the concrete runs -/

def civic : car := ⟨"1", 2020, "Honda", "Civic"⟩

/-- A second record with the same id as `civic`. -/
def accord : car := ⟨"1", 2021, "Honda", "Accord"⟩

def ka : car := ⟨"2", 1999, "Ford", "Ka"⟩

/-- A sample body decoder: it knows two bodies and reports an error on any other. -/
def sampleBind (body : String) : Option car :=
  if body = "civic" then some civic
  else if body = "accord" then some accord
  else none

/-! ## Lemmas about the loops -/

theorem findLoop_eq_find? (id : String) (l : List car) :
    findLoop id l = l.find? (fun c => decide (c.ID = id)) := by
  induction l with
  | nil => rfl
  | cons c rest ih =>
    by_cases h : c.ID = id
    · simp [findLoop, h]
    · simp [findLoop, h, ih]

theorem findLoop_absent (id : String) (l : List car) (h : ∀ x ∈ l, x.ID ≠ id) :
    findLoop id l = none := by
  induction l with
  | nil => rfl
  | cons c rest ih =>
    have hc : c.ID ≠ id := h c (List.mem_cons_self _ _)
    simp only [findLoop, hc, if_false]
    exact ih (fun x hx => h x (List.mem_cons_of_mem _ hx))

theorem findLoop_split (id : String) (pre post : List car) (r : car)
    (hpre : ∀ x ∈ pre, x.ID ≠ id) (hr : r.ID = id) :
    findLoop id (pre ++ r :: post) = some r := by
  induction pre with
  | nil => simp [findLoop, hr]
  | cons c rest ih =>
    have hc : c.ID ≠ id := hpre c (List.mem_cons_self _ _)
    simp only [List.cons_append, findLoop, hc, if_false]
    exact ih (fun x hx => hpre x (List.mem_cons_of_mem _ hx))

theorem indexLoop_absent (id : String) (l : List car) (k : Nat) (h : ∀ x ∈ l, x.ID ≠ id) :
    indexLoop id l k = none := by
  induction l generalizing k with
  | nil => rfl
  | cons c rest ih =>
    have hc : c.ID ≠ id := h c (List.mem_cons_self _ _)
    simp only [indexLoop, hc, if_false]
    exact ih (k + 1) (fun x hx => h x (List.mem_cons_of_mem _ hx))

theorem indexLoop_split (id : String) (pre post : List car) (r : car) (k : Nat)
    (hpre : ∀ x ∈ pre, x.ID ≠ id) (hr : r.ID = id) :
    indexLoop id (pre ++ r :: post) k = some (k + pre.length, r) := by
  induction pre generalizing k with
  | nil => simp [indexLoop, hr]
  | cons c rest ih =>
    have hc : c.ID ≠ id := hpre c (List.mem_cons_self _ _)
    have e := ih (k + 1) (fun x hx => hpre x (List.mem_cons_of_mem _ hx))
    rw [List.cons_append, indexLoop, if_neg hc, e, List.length_cons]
    congr 2
    omega

/-- A list holding a record with the id splits at the first such record. -/
theorem first_split (id : String) (l : List car) (h : ∃ x ∈ l, x.ID = id) :
    ∃ pre r post, l = pre ++ r :: post ∧ r.ID = id ∧ ∀ x ∈ pre, x.ID ≠ id := by
  induction l with
  | nil => obtain ⟨x, hx, _⟩ := h; cases hx
  | cons c rest ih =>
    by_cases hc : c.ID = id
    · exact ⟨[], c, rest, rfl, hc, fun x hx => by cases hx⟩
    · obtain ⟨x, hx, hxid⟩ := h
      have hrest : ∃ y ∈ rest, y.ID = id := by
        rcases List.mem_cons.mp hx with rfl | hmem
        · exact absurd hxid hc
        · exact ⟨x, hmem, hxid⟩
      obtain ⟨pre, r, post, hl, hr, hpre⟩ := ih hrest
      refine ⟨c :: pre, r, post, by simp [hl], hr, ?_⟩
      intro y hy
      rcases List.mem_cons.mp hy with rfl | hmem
      · exact hc
      · exact hpre y hmem

theorem take_drop_split (pre post : List car) (r : car) :
    (pre ++ r :: post).take (0 + pre.length) ++ (pre ++ r :: post).drop (0 + pre.length + 1)
      = pre ++ post := by
  simp

theorem collectLoop_acc (keep : car → Bool) (l acc : List car) :
    l.foldl (fun acc c => if keep c then acc ++ [c] else acc) acc = acc ++ l.filter keep := by
  induction l generalizing acc with
  | nil => simp
  | cons c rest ih =>
    by_cases hk : keep c = true
    · simp [List.foldl_cons, hk, ih, List.filter_cons]
    · simp [List.foldl_cons, hk, ih, List.filter_cons]

theorem collectLoop_eq_filter (keep : car → Bool) (l : List car) :
    collectLoop keep l = l.filter keep := by
  simp [collectLoop, collectLoop_acc]

/-- With pairwise distinct ids, dropping the record at the first match drops every record
with that id. -/
theorem filter_split_of_keyed (pre post : List car) (r : car)
    (h : Keyed (pre ++ r :: post)) :
    (pre ++ r :: post).filter (fun x => decide (x.ID ≠ r.ID)) = pre ++ post := by
  unfold Keyed at h
  rw [List.map_append, List.map_cons] at h
  have hpre : ∀ x ∈ pre, x.ID ≠ r.ID := by
    intro x hx heq
    have hdis := (List.nodup_append.mp h).2.2
    exact hdis (List.mem_map_of_mem car.ID hx) (by rw [heq]; exact List.mem_cons_self _ _)
  have hpost : ∀ x ∈ post, x.ID ≠ r.ID := by
    intro x hx heq
    have hcons := (List.nodup_append.mp h).2.1
    have hnot := (List.nodup_cons.mp hcons).1
    exact hnot (by rw [← heq]; exact List.mem_map_of_mem car.ID hx)
  rw [List.filter_append, List.filter_cons]
  have h1 : pre.filter (fun x => decide (x.ID ≠ r.ID)) = pre :=
    List.filter_eq_self.mpr (fun x hx => by simpa using hpre x hx)
  have h2 : post.filter (fun x => decide (x.ID ≠ r.ID)) = post :=
    List.filter_eq_self.mpr (fun x hx => by simpa using hpost x hx)
  rw [h1, h2]
  simp

theorem filter_absent (id : String) (l : List car) (h : ∀ x ∈ l, x.ID ≠ id) :
    l.filter (fun x => decide (x.ID ≠ id)) = l :=
  List.filter_eq_self.mpr (fun x hx => by simpa using h x hx)

theorem keyed_split (pre post : List car) (r : car) (h : Keyed (pre ++ r :: post)) :
    Keyed (pre ++ post) := by
  unfold Keyed at *
  rw [List.map_append] at *
  rw [List.map_cons] at h
  exact List.Nodup.sublist (List.Sublist.append_left (List.sublist_cons_self _ _) _) h

theorem digitVal_none_of_not_digit (ch : Char) (h : ch.isDigit = false) :
    digitVal ch = none := by
  unfold digitVal
  have hd : ¬ (48 ≤ ch.toNat ∧ ch.toNat ≤ 57) := by
    intro hh
    have : ch.isDigit = true := by
      simp only [Char.isDigit, Bool.and_eq_true, decide_eq_true_eq]
      exact ⟨UInt32.le_def.mpr (by simpa [Char.toNat] using hh.1),
        UInt32.le_def.mpr (by simpa [Char.toNat] using hh.2)⟩
    rw [h] at this
    cases this
  rw [if_neg hd]

theorem parseDigits_none (ds : List Char) (n : Nat) (h : ds.all Char.isDigit = false) :
    parseDigits ds n = none := by
  induction ds generalizing n with
  | nil => simp at h
  | cons ch rest ih =>
    unfold parseDigits
    cases hd : digitVal ch with
    | none => rfl
    | some d =>
      have hch : ch.isDigit = true := by
        by_contra hne
        rw [digitVal_none_of_not_digit ch (by simpa using hne)] at hd
        cases hd
      have hrest : rest.all Char.isDigit = false := by
        simpa [List.all_cons, hch] using h
      exact ih _ hrest

/-- The parser fails on every string that is not a decimal numeral. -/
theorem Atoi_none_of_not_numeral (s : String) (h : isNumeral s = false) : Atoi s = none := by
  unfold isNumeral at h
  unfold Atoi
  cases hs : s.data with
  | nil => rfl
  | cons ch rest =>
    rw [hs] at h
    simp only at h ⊢
    cases hds : (if ch = '-' ∨ ch = '+' then rest else ch :: rest) with
    | nil => rfl
    | cons d ds' =>
      rw [hds] at h
      have hall : (d :: ds').all Char.isDigit = false := by simpa using h
      simp only [parseDigits_none (d :: ds') 0 hall]

/-! ## Lemmas about the table model -/

theorem tableExec_insert_some (fault : Stmt → Bool) (t t' : List car) (c : car)
    (h : tableExec fault t (Stmt.insert c.ID c.Year c.Make c.Model) = some t') :
    c.ID ∉ t.map car.ID ∧ t' = t ++ [c] := by
  unfold tableExec at h
  by_cases hf : fault (Stmt.insert c.ID c.Year c.Make c.Model) = true
  · simp [hf] at h
  · by_cases hin : c.ID ∈ t.map car.ID
    · simp [hf, hin] at h
    · simp only [hf, hin, if_false, Bool.false_eq_true, Option.some.injEq] at h
      exact ⟨hin, h.symm⟩

theorem tableExec_delete_some (fault : Stmt → Bool) (t t' : List car) (id : String)
    (h : tableExec fault t (Stmt.delete id) = some t') :
    t' = t.filter (fun r => decide (r.ID ≠ id)) := by
  unfold tableExec at h
  by_cases hf : fault (Stmt.delete id) = true
  · simp [hf] at h
  · simp only [hf, if_false, Bool.false_eq_true, Option.some.injEq] at h
    exact h.symm

theorem keyed_append (t : List car) (c : car) (hkey : Keyed t) (hfresh : c.ID ∉ t.map car.ID) :
    Keyed (t ++ [c]) := by
  unfold Keyed at *
  rw [List.map_append, List.map_cons, List.map_nil]
  refine List.nodup_append.mpr ⟨hkey, List.nodup_singleton _, ?_⟩
  intro a ha hb
  rw [List.mem_singleton] at hb
  exact hfresh (hb ▸ ha)

theorem keyed_filter (t : List car) (p : car → Bool) (hkey : Keyed t) : Keyed (t.filter p) := by
  unfold Keyed at *
  exact List.Nodup.sublist (List.Sublist.map car.ID (List.filter_sublist t)) hkey

theorem keyed_of_perm (m t : List car) (hsync : m.Perm t) (hkey : Keyed t) : Keyed m := by
  unfold Keyed at *
  exact ((hsync.map car.ID).nodup_iff).mpr hkey

/-! ## The handlers, case by case -/

theorem deleteCarById_found {σ : Type} (exec : σ → Stmt → Option σ) (s : Proc σ) (id : String)
    (pre post : List car) (r : car) (hs : s.cars = pre ++ r :: post)
    (hpre : ∀ x ∈ pre, x.ID ≠ id) (hr : r.ID = id) :
    deleteCarById exec s id =
      match exec s.db (Stmt.delete id) with
      | none => Outcome.fatal [Stmt.delete id]
      | some db => Outcome.returned ⟨pre ++ post, db⟩ [Stmt.delete id]
          (some ⟨StatusOK, Payload.one r⟩) := by
  unfold deleteCarById dbDeleteCar
  rw [hs, indexLoop_split id pre post r 0 hpre hr]
  simp only [take_drop_split, hr]

theorem deleteCarById_absent {σ : Type} (exec : σ → Stmt → Option σ) (s : Proc σ) (id : String)
    (h : ∀ x ∈ s.cars, x.ID ≠ id) :
    deleteCarById exec s id =
      Outcome.returned s [] (some ⟨StatusNotFound, Payload.H "car not found."⟩) := by
  unfold deleteCarById
  rw [indexLoop_absent id s.cars 0 h]

theorem getCarById_absent {σ : Type} (s : Proc σ) (id : String)
    (h : ∀ x ∈ s.cars, x.ID ≠ id) :
    getCarById s id =
      Outcome.returned s [] (some ⟨StatusNotFound, Payload.H "car not found."⟩) := by
  unfold getCarById
  rw [findLoop_absent id s.cars h]

theorem getCarById_found {σ : Type} (s : Proc σ) (id : String)
    (pre post : List car) (r : car) (hs : s.cars = pre ++ r :: post)
    (hpre : ∀ x ∈ pre, x.ID ≠ id) (hr : r.ID = id) :
    getCarById s id = Outcome.returned s [] (some ⟨StatusOK, Payload.one r⟩) := by
  unfold getCarById
  rw [hs, findLoop_split id pre post r hpre hr]

theorem deleteCarById_progress {σ : Type} (exec : σ → Stmt → Option σ) (s : Proc σ)
    (id : String) (db' : σ) (hok : exec s.db (Stmt.delete id) = some db') :
    ∃ s' issued resp, deleteCarById exec s id = Outcome.returned s' issued resp := by
  by_cases h : ∃ x ∈ s.cars, x.ID = id
  · obtain ⟨pre, r, post, hs, hr, hpre⟩ := first_split id s.cars h
    have hrun := deleteCarById_found exec s id pre post r hs hpre hr
    rw [hok] at hrun
    exact ⟨_, _, _, hrun⟩
  · have habs : ∀ x ∈ s.cars, x.ID ≠ id := fun x hx hxid => h ⟨x, hx, hxid⟩
    exact ⟨_, _, _, deleteCarById_absent exec s id habs⟩

/-- What a returned `deleteCarById` has done to the mirror: removed the first record with
the id, or nothing when there is none. -/
theorem deleteCarById_returned {σ : Type} (exec : σ → Stmt → Option σ) (s s' : Proc σ)
    (id : String) (issued : List Stmt) (resp : Option Response)
    (h : deleteCarById exec s id = Outcome.returned s' issued resp) :
    (∃ pre r post, s.cars = pre ++ r :: post ∧ r.ID = id ∧ (∀ x ∈ pre, x.ID ≠ id) ∧
        s'.cars = pre ++ post)
    ∨ ((∀ x ∈ s.cars, x.ID ≠ id) ∧ s' = s) := by
  by_cases hex : ∃ x ∈ s.cars, x.ID = id
  · left
    obtain ⟨pre, r, post, hs, hr, hpre⟩ := first_split id s.cars hex
    have hrun := deleteCarById_found exec s id pre post r hs hpre hr
    rw [h] at hrun
    cases hdb : exec s.db (Stmt.delete id) with
    | none =>
      rw [hdb] at hrun
      cases hrun
    | some db =>
      rw [hdb] at hrun
      simp only [Outcome.returned.injEq] at hrun
      exact ⟨pre, r, post, hs, hr, hpre, by rw [hrun.1]⟩
  · right
    have habs : ∀ x ∈ s.cars, x.ID ≠ id := fun x hx hxid => hex ⟨x, hx, hxid⟩
    have hrun := deleteCarById_absent exec s id habs
    rw [h] at hrun
    simp only [Outcome.returned.injEq] at hrun
    exact ⟨habs, hrun.1⟩

theorem postCar_progress {σ : Type} (exec : σ → Stmt → Option σ) (bind : String → Option car)
    (s : Proc σ) (body : String) (c : car) (db' : σ) (hbind : bind body = some c)
    (hok : exec s.db (Stmt.insert c.ID c.Year c.Make c.Model) = some db') :
    postCar exec bind s body
      = Outcome.returned ⟨s.cars ++ [c], db'⟩ [Stmt.insert c.ID c.Year c.Make c.Model]
          (some ⟨StatusCreated, Payload.one c⟩) := by
  unfold postCar dbAddCar
  rw [hbind]
  simp only [hok]

/-- What a returned `postCar` has done when the body bound to `c`. -/
theorem postCar_returned {σ : Type} (exec : σ → Stmt → Option σ) (bind : String → Option car)
    (s s' : Proc σ) (body : String) (c : car) (issued : List Stmt) (resp : Option Response)
    (hbind : bind body = some c)
    (h : postCar exec bind s body = Outcome.returned s' issued resp) :
    s'.cars = s.cars ++ [c] ∧ issued = [Stmt.insert c.ID c.Year c.Make c.Model] ∧
      resp = some ⟨StatusCreated, Payload.one c⟩ := by
  cases hdb : exec s.db (Stmt.insert c.ID c.Year c.Make c.Model) with
  | none =>
    unfold postCar dbAddCar at h
    rw [hbind] at h
    simp only [hdb] at h
    cases h
  | some db =>
    rw [postCar_progress exec bind s body c db hbind hdb] at h
    simp only [Outcome.returned.injEq] at h
    exact ⟨by rw [← h.1], h.2.1.symm, h.2.2.symm⟩

/-! ## The claims -/

/-- C6: for every mirror and id, `getCarById` leaves the state unchanged, issues no statement
and responds 200 with the first record in list order whose ID equals the id when there is
one, and 404 "car not found." otherwise; it responds 404 exactly when no record has the
id. -/
theorem getCarById_first_match {σ : Type} (s : Proc σ) (id : String) :
    getCarById s id =
      Outcome.returned s []
        (some (match s.cars.find? (fun c => decide (c.ID = id)) with
          | some c => ⟨StatusOK, Payload.one c⟩
          | none => ⟨StatusNotFound, Payload.H "car not found."⟩))
    ∧ (getCarById s id
          = Outcome.returned s [] (some ⟨StatusNotFound, Payload.H "car not found."⟩)
        ↔ ∀ c ∈ s.cars, c.ID ≠ id) := by
  have hmain : getCarById s id =
      Outcome.returned s []
        (some (match s.cars.find? (fun c => decide (c.ID = id)) with
          | some c => ⟨StatusOK, Payload.one c⟩
          | none => ⟨StatusNotFound, Payload.H "car not found."⟩)) := by
    unfold getCarById
    rw [findLoop_eq_find?]
    cases s.cars.find? (fun c => decide (c.ID = id)) <;> rfl
  refine ⟨hmain, ?_, getCarById_absent s id⟩
  intro h404
  rw [hmain] at h404
  cases hf : s.cars.find? (fun c => decide (c.ID = id)) with
  | none =>
    intro c hc
    have := List.find?_eq_none.mp hf c hc
    simpa using this
  | some c =>
    rw [hf] at h404
    simp [StatusOK, StatusNotFound] at h404

/-- C3: for every mirror and id, when some record has the id, `deleteCarById` splits the
mirror at the first such record `r` as `pre ++ r :: post`, makes `pre ++ post` the new mirror,
issues exactly the delete of that id and responds 200 with `r` (when the driver reports an
error on the delete, `log.Fatal` ends the process instead); when no record has the id it
responds 404 "car not found.", leaves the state unchanged and issues no statement. -/
theorem deleteCarById_removes_first {σ : Type} (exec : σ → Stmt → Option σ) (s : Proc σ)
    (id : String) :
    ((∃ x ∈ s.cars, x.ID = id) →
      ∃ pre r post, s.cars = pre ++ r :: post ∧ r.ID = id ∧ (∀ x ∈ pre, x.ID ≠ id) ∧
        deleteCarById exec s id =
          match exec s.db (Stmt.delete id) with
          | none => Outcome.fatal [Stmt.delete id]
          | some db => Outcome.returned ⟨pre ++ post, db⟩ [Stmt.delete id]
              (some ⟨StatusOK, Payload.one r⟩))
    ∧ ((∀ x ∈ s.cars, x.ID ≠ id) →
        deleteCarById exec s id =
          Outcome.returned s [] (some ⟨StatusNotFound, Payload.H "car not found."⟩)) := by
  refine ⟨?_, deleteCarById_absent exec s id⟩
  intro h
  obtain ⟨pre, r, post, hs, hr, hpre⟩ := first_split id s.cars h
  exact ⟨pre, r, post, hs, hr, hpre, deleteCarById_found exec s id pre post r hs hpre hr⟩

/-- C3, a concrete run: deleting id "1" from the mirror ka, civic, accord on a store that
accepts every statement. -/
theorem deleteCarById_removes_first_witness :
    (∃ x ∈ [ka, civic, accord], x.ID = "1") ∧
    ∃ pre r post, [ka, civic, accord] = pre ++ r :: post ∧ r.ID = "1" ∧
      (∀ x ∈ pre, x.ID ≠ "1") ∧
      deleteCarById logExec ⟨[ka, civic, accord], []⟩ "1" =
        match logExec [] (Stmt.delete "1") with
        | none => Outcome.fatal [Stmt.delete "1"]
        | some db => Outcome.returned ⟨pre ++ post, db⟩ [Stmt.delete "1"]
            (some ⟨StatusOK, Payload.one r⟩) :=
  ⟨⟨civic, by decide, by decide⟩,
    (deleteCarById_removes_first logExec ⟨[ka, civic, accord], []⟩ "1").1
      ⟨civic, by decide, by decide⟩⟩

/-- C10: for every mirror whose ids are pairwise distinct and every id, `deleteCarById`
returns whenever the storage accepts the delete, and whenever it returns the new mirror is
the old mirror filtered to the records with a different ID; it holds no record with the id
and its ids are still pairwise distinct. -/
theorem deleteCarById_keyed {σ : Type} (exec : σ → Stmt → Option σ) (s : Proc σ) (id : String)
    (hkey : Keyed s.cars) :
    (∀ db', exec s.db (Stmt.delete id) = some db' →
      ∃ s' issued resp, deleteCarById exec s id = Outcome.returned s' issued resp)
    ∧ (∀ s' issued resp, deleteCarById exec s id = Outcome.returned s' issued resp →
      s'.cars = s.cars.filter (fun r => decide (r.ID ≠ id)) ∧
      (∀ r ∈ s'.cars, r.ID ≠ id) ∧ Keyed s'.cars) := by
  refine ⟨fun db' hok => deleteCarById_progress exec s id db' hok, ?_⟩
  intro s' issued resp hrun
  rcases deleteCarById_returned exec s s' id issued resp hrun with
    ⟨pre, r, post, hs, hr, _, hs'⟩ | ⟨habs, rfl⟩
  · rw [hs] at hkey
    have hfil := filter_split_of_keyed pre post r hkey
    rw [hr] at hfil
    refine ⟨by rw [hs, hfil, hs'], ?_, by rw [hs']; exact keyed_split pre post r hkey⟩
    intro x hx
    have hx' : x ∈ (pre ++ r :: post).filter (fun r => decide (r.ID ≠ id)) := by
      rw [hfil, ← hs']; exact hx
    simpa using (List.mem_filter.mp hx').2
  · exact ⟨(filter_absent id s'.cars habs).symm, habs, hkey⟩

/-- C10, a concrete run on the mirror ka, civic with a store that accepts every statement. -/
theorem deleteCarById_keyed_witness :
    Keyed [ka, civic]
    ∧ deleteCarById logExec ⟨[ka, civic], []⟩ "1"
      = Outcome.returned ⟨[ka], [Stmt.delete "1"]⟩ [Stmt.delete "1"]
          (some ⟨200, Payload.one civic⟩)
    ∧ [ka] = [ka, civic].filter (fun r => decide (r.ID ≠ "1"))
    ∧ (∀ r ∈ [ka], r.ID ≠ "1") ∧ Keyed [ka] :=
  ⟨by unfold Keyed; decide, by decide,
    (deleteCarById_keyed logExec ⟨[ka, civic], []⟩ "1" (by unfold Keyed; decide)).2
      ⟨[ka], [Stmt.delete "1"]⟩ [Stmt.delete "1"] (some ⟨200, Payload.one civic⟩) (by decide)⟩

/-- C2 as stated fails: on a mirror holding two records with id "1", after the DELETE of "1"
a GET of "1" responds 200 with the second record, and so does a second DELETE. -/
theorem delete_then_get_counterexample :
    deleteCarById logExec ⟨[civic, accord], []⟩ "1"
      = Outcome.returned ⟨[accord], [Stmt.delete "1"]⟩ [Stmt.delete "1"]
          (some ⟨200, Payload.one civic⟩)
    ∧ getCarById (⟨[accord], [Stmt.delete "1"]⟩ : Proc (List Stmt)) "1"
      = Outcome.returned ⟨[accord], [Stmt.delete "1"]⟩ [] (some ⟨200, Payload.one accord⟩)
    ∧ deleteCarById logExec ⟨[accord], [Stmt.delete "1"]⟩ "1"
      = Outcome.returned ⟨[], [Stmt.delete "1", Stmt.delete "1"]⟩ [Stmt.delete "1"]
          (some ⟨200, Payload.one accord⟩)
    ∧ (⟨200, Payload.one accord⟩ : Response) ≠ ⟨404, Payload.H "car not found."⟩ := by
  decide

/-- C2, amended: for every mirror that holds at most one record with the id,
`deleteCarById` returns whenever the storage accepts the delete, and whenever it has returned
the mirror holds no record with the id: a following `getCarById` responds 404 "car not
found." and so does a following second `deleteCarById`, which issues no statement. -/
theorem delete_then_absent {σ : Type} (exec : σ → Stmt → Option σ) (s : Proc σ) (id : String)
    (hone : (s.cars.filter (fun r => decide (r.ID = id))).length ≤ 1) :
    (∀ db', exec s.db (Stmt.delete id) = some db' →
      ∃ s' issued resp, deleteCarById exec s id = Outcome.returned s' issued resp)
    ∧ (∀ s' issued resp, deleteCarById exec s id = Outcome.returned s' issued resp →
      (∀ r ∈ s'.cars, r.ID ≠ id) ∧
      getCarById s' id
        = Outcome.returned s' [] (some ⟨StatusNotFound, Payload.H "car not found."⟩) ∧
      deleteCarById exec s' id
        = Outcome.returned s' [] (some ⟨StatusNotFound, Payload.H "car not found."⟩)) := by
  refine ⟨fun db' hok => deleteCarById_progress exec s id db' hok, ?_⟩
  intro s' issued resp hrun
  have hnone : ∀ x ∈ s'.cars, x.ID ≠ id := by
    rcases deleteCarById_returned exec s s' id issued resp hrun with
      ⟨pre, r, post, hs, hr, hpre, hs'⟩ | ⟨habs, rfl⟩
    · have hpost : ∀ x ∈ post, x.ID ≠ id := by
        intro x hx hxid
        rw [hs, List.filter_append, List.filter_cons] at hone
        simp only [hr, decide_True, if_true, List.length_append, List.length_cons] at hone
        have hmem : x ∈ post.filter (fun r => decide (r.ID = id)) :=
          List.mem_filter.mpr ⟨hx, by simpa using hxid⟩
        have hpos := List.length_pos_of_mem hmem
        omega
      intro x hx
      rw [hs'] at hx
      rcases List.mem_append.mp hx with hx | hx
      · exact hpre x hx
      · exact hpost x hx
    · exact habs
  exact ⟨hnone, getCarById_absent s' id hnone, deleteCarById_absent exec s' id hnone⟩

/-- C2 amended, a concrete run on the mirror ka, civic with a store that accepts every
statement. -/
theorem delete_then_absent_witness :
    ([ka, civic].filter (fun r => decide (r.ID = "1"))).length ≤ 1
    ∧ deleteCarById logExec ⟨[ka, civic], []⟩ "1"
      = Outcome.returned ⟨[ka], [Stmt.delete "1"]⟩ [Stmt.delete "1"]
          (some ⟨200, Payload.one civic⟩)
    ∧ (∀ r ∈ [ka], r.ID ≠ "1")
    ∧ getCarById (⟨[ka], [Stmt.delete "1"]⟩ : Proc (List Stmt)) "1"
      = Outcome.returned ⟨[ka], [Stmt.delete "1"]⟩ []
          (some ⟨StatusNotFound, Payload.H "car not found."⟩)
    ∧ deleteCarById logExec ⟨[ka], [Stmt.delete "1"]⟩ "1"
      = Outcome.returned ⟨[ka], [Stmt.delete "1"]⟩ []
          (some ⟨StatusNotFound, Payload.H "car not found."⟩) :=
  ⟨by decide, by decide,
    (delete_then_absent logExec ⟨[ka, civic], []⟩ "1" (by decide)).2
      ⟨[ka], [Stmt.delete "1"]⟩ [Stmt.delete "1"] (some ⟨200, Payload.one civic⟩) (by decide)⟩

/-- C1 as stated fails: on a mirror that already holds a record with id "1" (year 2021,
model "Accord"), the POST of a car with id "1", year 2020, model "Civic" succeeds, and the
GET of "1" that follows responds 200 with the older record, whose year and model differ. -/
theorem post_then_get_counterexample :
    sampleBind "civic" = some civic
    ∧ postCar logExec sampleBind ⟨[accord], []⟩ "civic"
      = Outcome.returned ⟨[accord, civic], [Stmt.insert "1" 2020 "Honda" "Civic"]⟩
          [Stmt.insert "1" 2020 "Honda" "Civic"] (some ⟨201, Payload.one civic⟩)
    ∧ getCarById (⟨[accord, civic], [Stmt.insert "1" 2020 "Honda" "Civic"]⟩ : Proc (List Stmt))
        civic.ID
      = Outcome.returned ⟨[accord, civic], [Stmt.insert "1" 2020 "Honda" "Civic"]⟩ []
          (some ⟨200, Payload.one accord⟩)
    ∧ accord.Year ≠ civic.Year ∧ accord.Model ≠ civic.Model := by
  decide

/-- C1, amended: for every mirror and every car `c` decoded from the POST body, `postCar`
returns whenever the storage accepts the insert, and whenever it has returned it has
responded 201 with `c` and a following `getCarById` with id `c.ID` responds 200 with the
first record of the previous mirror that has this id, or with `c` when there is none; so
when the previous mirror holds no record with id `c.ID` the car in the response is `c`,
equal in id, year, make and model. -/
theorem post_then_get {σ : Type} (exec : σ → Stmt → Option σ) (bind : String → Option car)
    (s : Proc σ) (body : String) (c : car) (hbind : bind body = some c) :
    (∀ db', exec s.db (Stmt.insert c.ID c.Year c.Make c.Model) = some db' →
      ∃ s' issued resp, postCar exec bind s body = Outcome.returned s' issued resp)
    ∧ (∀ s' issued resp, postCar exec bind s body = Outcome.returned s' issued resp →
      resp = some ⟨StatusCreated, Payload.one c⟩
      ∧ getCarById s' c.ID
        = Outcome.returned s' []
            (some ⟨StatusOK,
              Payload.one ((s.cars.find? (fun r => decide (r.ID = c.ID))).getD c)⟩)
      ∧ ((∀ r ∈ s.cars, r.ID ≠ c.ID) →
          getCarById s' c.ID
            = Outcome.returned s' [] (some ⟨StatusOK, Payload.one c⟩))) := by
  refine ⟨fun db' hok => ⟨_, _, _, postCar_progress exec bind s body c db' hbind hok⟩, ?_⟩
  intro s' issued resp hrun
  obtain ⟨hcars, _, hresp⟩ := postCar_returned exec bind s s' body c issued resp hbind hrun
  refine ⟨hresp, ?_, ?_⟩
  · unfold getCarById
    rw [findLoop_eq_find?, hcars]
    simp only [List.find?_append]
    cases s.cars.find? (fun r => decide (r.ID = c.ID)) <;> simp
  · intro hfresh
    exact getCarById_found s' c.ID s.cars [] c hcars hfresh rfl

/-- C1 amended, a concrete run: POST of civic on the mirror holding ka with a store that
accepts every statement, then GET of "1". -/
theorem post_then_get_witness :
    sampleBind "civic" = some civic
    ∧ postCar logExec sampleBind ⟨[ka], []⟩ "civic"
      = Outcome.returned ⟨[ka, civic], [Stmt.insert "1" 2020 "Honda" "Civic"]⟩
          [Stmt.insert "1" 2020 "Honda" "Civic"] (some ⟨201, Payload.one civic⟩)
    ∧ getCarById (⟨[ka, civic], [Stmt.insert "1" 2020 "Honda" "Civic"]⟩ : Proc (List Stmt))
        civic.ID
      = Outcome.returned ⟨[ka, civic], [Stmt.insert "1" 2020 "Honda" "Civic"]⟩ []
          (some ⟨StatusOK, Payload.one civic⟩) :=
  ⟨by decide, by decide,
    ((post_then_get logExec sampleBind ⟨[ka], []⟩ "civic" civic (by decide)).2
      ⟨[ka, civic], [Stmt.insert "1" 2020 "Honda" "Civic"]⟩
      [Stmt.insert "1" 2020 "Honda" "Civic"] (some ⟨201, Payload.one civic⟩)
      (by decide)).2.2 (by decide)⟩

/-- C4: for every mirror (also one that already holds a record with the same id) and every
car `c` decoded from the POST body, when the storage accepts the insert `postCar` issues
exactly the insert of `c`, responds 201 with `c`, and the new mirror is the old one with `c`
appended: one longer, every earlier position unchanged, `c` at the last position. -/
theorem postCar_appends {σ : Type} (exec : σ → Stmt → Option σ) (bind : String → Option car)
    (s : Proc σ) (body : String) (c : car) (db' : σ) (hbind : bind body = some c)
    (hok : exec s.db (Stmt.insert c.ID c.Year c.Make c.Model) = some db') :
    postCar exec bind s body
      = Outcome.returned ⟨s.cars ++ [c], db'⟩ [Stmt.insert c.ID c.Year c.Make c.Model]
          (some ⟨StatusCreated, Payload.one c⟩)
    ∧ (s.cars ++ [c]).length = s.cars.length + 1
    ∧ (∀ i, i < s.cars.length → (s.cars ++ [c])[i]? = s.cars[i]?)
    ∧ (s.cars ++ [c])[s.cars.length]? = some c := by
  refine ⟨postCar_progress exec bind s body c db' hbind hok, by simp, ?_, by simp⟩
  · intro i hi
    exact List.getElem?_append_left hi

/-- C4, a concrete run: the mirror already holds accord, whose id is that of civic. -/
theorem postCar_appends_witness :
    sampleBind "civic" = some civic ∧ accord.ID = civic.ID ∧
    postCar logExec sampleBind ⟨[accord], []⟩ "civic"
      = Outcome.returned ⟨[accord] ++ [civic], [Stmt.insert "1" 2020 "Honda" "Civic"]⟩
          [Stmt.insert civic.ID civic.Year civic.Make civic.Model]
          (some ⟨StatusCreated, Payload.one civic⟩) :=
  ⟨by decide, by decide,
    (postCar_appends logExec sampleBind ⟨[accord], []⟩ "civic" civic
      [Stmt.insert "1" 2020 "Honda" "Civic"] (by decide) rfl).1⟩

/-- C8: for every state and every body on which the binding reports an error, `postCar`
returns without writing a response, with the state unchanged and no statement issued. -/
theorem postCar_unparsable {σ : Type} (exec : σ → Stmt → Option σ)
    (bind : String → Option car) (s : Proc σ) (body : String) (hbind : bind body = none) :
    postCar exec bind s body = Outcome.returned s [] none := by
  unfold postCar
  rw [hbind]

/-- C8, a concrete run: a body the sample decoder rejects. -/
theorem postCar_unparsable_witness :
    sampleBind "not json" = none ∧
    postCar logExec sampleBind ⟨[ka], []⟩ "not json" = Outcome.returned ⟨[ka], []⟩ [] none :=
  ⟨by decide, postCar_unparsable logExec sampleBind ⟨[ka], []⟩ "not json" (by decide)⟩

/-- C5: for each of the three filter handlers, with `r` the records of the mirror, in mirror
order, whose year (make, model) equals the requested value exactly, the handler leaves the
state unchanged and responds 200 with `r` when `r` is not empty and 404 with "year not
found." ("make not found.", "model not found.") when it is empty; string equality is exact,
so a record with make "Honda" is never in the result for "honda". -/
theorem filter_handlers {σ : Type} (s : Proc σ) :
    (∀ yearParam year, Atoi yearParam = some year →
      getCarsByYear s yearParam = Outcome.returned s []
        (some (if s.cars.filter (fun c => decide (c.Year = year)) = []
          then ⟨StatusNotFound, Payload.H "year not found."⟩
          else ⟨StatusOK, Payload.many (s.cars.filter (fun c => decide (c.Year = year)))⟩)))
    ∧ (∀ make,
      getCarsByMake s make = Outcome.returned s []
        (some (if s.cars.filter (fun c => decide (c.Make = make)) = []
          then ⟨StatusNotFound, Payload.H "make not found."⟩
          else ⟨StatusOK, Payload.many (s.cars.filter (fun c => decide (c.Make = make)))⟩)))
    ∧ (∀ model,
      getCarsByModel s model = Outcome.returned s []
        (some (if s.cars.filter (fun c => decide (c.Model = model)) = []
          then ⟨StatusNotFound, Payload.H "model not found."⟩
          else ⟨StatusOK, Payload.many (s.cars.filter (fun c => decide (c.Model = model)))⟩)))
    ∧ (∀ c : car, c.Make = "Honda" →
        c ∉ s.cars.filter (fun c => decide (c.Make = "honda"))) := by
  refine ⟨?_, ?_, ?_, ?_⟩
  · intro yearParam year hy
    unfold getCarsByYear
    rw [hy]
    simp only [collectLoop_eq_filter]
    cases hr : s.cars.filter (fun c => decide (c.Year = year)) <;> simp
  · intro make
    unfold getCarsByMake
    simp only [collectLoop_eq_filter]
    cases hr : s.cars.filter (fun c => decide (c.Make = make)) <;> simp
  · intro model
    unfold getCarsByModel
    simp only [collectLoop_eq_filter]
    cases hr : s.cars.filter (fun c => decide (c.Model = model)) <;> simp
  · intro c hc hmem
    have h := (List.mem_filter.mp hmem).2
    rw [hc] at h
    exact absurd h (by decide)

/-- C5, concrete runs on the mirror ka, civic, accord: year 2020 gives civic, make "Honda"
gives civic and accord, make "honda" gives 404, model "Ka" gives ka. -/
theorem filter_handlers_witness :
    Atoi "2020" = some 2020
    ∧ getCarsByYear (⟨[ka, civic, accord], ()⟩ : Proc Unit) "2020"
      = Outcome.returned ⟨[ka, civic, accord], ()⟩ [] (some ⟨200, Payload.many [civic]⟩)
    ∧ getCarsByMake (⟨[ka, civic, accord], ()⟩ : Proc Unit) "Honda"
      = Outcome.returned ⟨[ka, civic, accord], ()⟩ []
          (some ⟨200, Payload.many [civic, accord]⟩)
    ∧ getCarsByMake (⟨[ka, civic, accord], ()⟩ : Proc Unit) "honda"
      = Outcome.returned ⟨[ka, civic, accord], ()⟩ []
          (some ⟨404, Payload.H "make not found."⟩)
    ∧ getCarsByModel (⟨[ka, civic, accord], ()⟩ : Proc Unit) "Ka"
      = Outcome.returned ⟨[ka, civic, accord], ()⟩ [] (some ⟨200, Payload.many [ka]⟩) :=
  have h := filter_handlers (⟨[ka, civic, accord], ()⟩ : Proc Unit)
  ⟨by decide, (h.1 "2020" 2020 (by decide)).trans (by decide),
    (h.2.1 "Honda").trans (by decide), (h.2.1 "honda").trans (by decide),
    (h.2.2.1 "Ka").trans (by decide)⟩

/-- C7: for every state and every year parameter on which the integer parse fails (which
includes every string that is not a decimal numeral, such as "abc"), `getCarsByYear`
responds 400 "invalid year.", issues no statement and leaves the state unchanged; the
response does not depend on the mirror. -/
theorem getCarsByYear_invalid {σ : Type} (s : Proc σ) (yearParam : String)
    (h : isNumeral yearParam = false ∨ Atoi yearParam = none) :
    getCarsByYear s yearParam
      = Outcome.returned s [] (some ⟨StatusBadRequest, Payload.H "invalid year."⟩)
    ∧ ∀ s₂ : Proc σ, getCarsByYear s₂ yearParam
      = Outcome.returned s₂ [] (some ⟨StatusBadRequest, Payload.H "invalid year."⟩) := by
  have hnone : Atoi yearParam = none := by
    rcases h with h | h
    · exact Atoi_none_of_not_numeral yearParam h
    · exact h
  have key : ∀ s₂ : Proc σ, getCarsByYear s₂ yearParam
      = Outcome.returned s₂ [] (some ⟨StatusBadRequest, Payload.H "invalid year."⟩) := by
    intro s₂
    unfold getCarsByYear
    rw [hnone]
  exact ⟨key s, key⟩

/-- C7, a concrete run: the year parameter "abc" on the mirror ka, civic. -/
theorem getCarsByYear_invalid_witness :
    isNumeral "abc" = false ∧
    getCarsByYear (⟨[ka, civic], ()⟩ : Proc Unit) "abc"
      = Outcome.returned ⟨[ka, civic], ()⟩ []
          (some ⟨StatusBadRequest, Payload.H "invalid year."⟩) :=
  ⟨by decide,
    (getCarsByYear_invalid (⟨[ka, civic], ()⟩ : Proc Unit) "abc" (Or.inl (by decide))).1⟩

/-- C9: model the storage as the table `cars` keyed by id (`tableExec`, with any set of
driver faults).  If the rows of the table have pairwise distinct ids and the records of the
mirror are exactly the rows of the table (as multisets), then: `postCar` of a decoded car
`c` issues exactly the insert of `c`, and either the storage refuses it and the process ends,
or the handler returns with `c` appended and the mirror again holds exactly the rows of the
table; `deleteCarById` at the first record `r` with the id issues exactly the delete of
`r.ID`, and either the storage refuses it and the process ends, or the handler returns with
`r` removed and the mirror again holds exactly the rows of the table; `deleteCarById` of an
absent id and `postCar` of a body that does not bind change nothing.  The key property of the table is kept as well. -/
theorem mirror_table_sync (fault : Stmt → Bool) (m t : List car) (hkey : Keyed t)
    (hsync : m.Perm t) :
    (∀ (bind : String → Option car) (body : String), bind body = none →
      postCar (tableExec fault) bind ⟨m, t⟩ body = Outcome.returned ⟨m, t⟩ [] none)
    ∧ (∀ (bind : String → Option car) (body : String) (c : car), bind body = some c →
      (tableExec fault t (Stmt.insert c.ID c.Year c.Make c.Model) = none →
        postCar (tableExec fault) bind ⟨m, t⟩ body
          = Outcome.fatal [Stmt.insert c.ID c.Year c.Make c.Model])
      ∧ (∀ t', tableExec fault t (Stmt.insert c.ID c.Year c.Make c.Model) = some t' →
        postCar (tableExec fault) bind ⟨m, t⟩ body
          = Outcome.returned ⟨m ++ [c], t'⟩ [Stmt.insert c.ID c.Year c.Make c.Model]
              (some ⟨StatusCreated, Payload.one c⟩)
        ∧ (m ++ [c]).Perm t' ∧ Keyed t'))
    ∧ (∀ (id : String) (pre post : List car) (r : car),
      m = pre ++ r :: post → r.ID = id → (∀ x ∈ pre, x.ID ≠ id) →
      (tableExec fault t (Stmt.delete r.ID) = none →
        deleteCarById (tableExec fault) ⟨m, t⟩ id = Outcome.fatal [Stmt.delete r.ID])
      ∧ (∀ t', tableExec fault t (Stmt.delete r.ID) = some t' →
        deleteCarById (tableExec fault) ⟨m, t⟩ id
          = Outcome.returned ⟨pre ++ post, t'⟩ [Stmt.delete r.ID]
              (some ⟨StatusOK, Payload.one r⟩)
        ∧ (pre ++ post).Perm t' ∧ Keyed t'))
    ∧ (∀ id : String, (∀ x ∈ m, x.ID ≠ id) →
      deleteCarById (tableExec fault) ⟨m, t⟩ id
        = Outcome.returned ⟨m, t⟩ [] (some ⟨StatusNotFound, Payload.H "car not found."⟩)) := by
  refine ⟨?_, ?_, ?_, ?_⟩
  · intro bind body hbind
    exact postCar_unparsable (tableExec fault) bind ⟨m, t⟩ body hbind
  · intro bind body c hbind
    constructor
    · intro hnone
      unfold postCar dbAddCar
      rw [hbind]
      simp only [hnone]
    · intro t' hsome
      obtain ⟨hfresh, rfl⟩ := tableExec_insert_some fault t t' c hsome
      refine ⟨?_, hsync.append_right [c], keyed_append t c hkey hfresh⟩
      unfold postCar dbAddCar
      rw [hbind]
      simp only [hsome]
  · intro id pre post r hm hr hpre
    subst hr
    have hrun := deleteCarById_found (tableExec fault) ⟨m, t⟩ r.ID pre post r hm hpre rfl
    constructor
    · intro hnone
      rw [hrun]
      simp only [hnone]
    · intro t' hsome
      have ht' := tableExec_delete_some fault t t' r.ID hsome
      refine ⟨?_, ?_, ?_⟩
      · rw [hrun]
        simp only [hsome]
      · have hkm : Keyed (pre ++ r :: post) := hm ▸ keyed_of_perm m t hsync hkey
        have hfil := filter_split_of_keyed pre post r hkm
        rw [ht', ← hfil, ← hm]
        exact hsync.filter _
      · rw [ht']
        exact keyed_filter t _ hkey
  · intro id habs
    exact deleteCarById_absent (tableExec fault) ⟨m, t⟩ id habs

/-- C9, concrete runs on the table holding ka and civic with no driver fault, mirror in the
same order: the POST of a car with a fresh id and the DELETE of "1" both return in sync. -/
theorem mirror_table_sync_witness :
    Keyed [ka, civic] ∧ [ka, civic].Perm [ka, civic]
    ∧ postCar (tableExec (fun _ => false)) (fun _ => some ⟨"3", 2011, "Fiat", "Panda"⟩)
        ⟨[ka, civic], [ka, civic]⟩ ""
      = Outcome.returned
          ⟨[ka, civic] ++ [⟨"3", 2011, "Fiat", "Panda"⟩], [ka, civic, ⟨"3", 2011, "Fiat", "Panda"⟩]⟩
          [Stmt.insert "3" 2011 "Fiat" "Panda"]
          (some ⟨StatusCreated, Payload.one ⟨"3", 2011, "Fiat", "Panda"⟩⟩)
    ∧ deleteCarById (tableExec (fun _ => false)) ⟨[ka, civic], [ka, civic]⟩ "1"
      = Outcome.returned ⟨[ka] ++ [], [ka]⟩ [Stmt.delete civic.ID]
          (some ⟨StatusOK, Payload.one civic⟩) :=
  have h := mirror_table_sync (fun _ => false) [ka, civic] [ka, civic]
    (by unfold Keyed; decide) (List.Perm.refl _)
  ⟨by unfold Keyed; decide, List.Perm.refl _,
    ((h.2.1 (fun _ => some ⟨"3", 2011, "Fiat", "Panda"⟩) "" ⟨"3", 2011, "Fiat", "Panda"⟩ rfl).2
      [ka, civic, ⟨"3", 2011, "Fiat", "Panda"⟩] (by decide)).1,
    ((h.2.2.1 "1" [ka] [] civic (by decide) (by decide) (by decide)).2 [ka] (by decide)).1⟩

end CarService
